import Mathlib

/-!
Verification of the CRUCIBLE reconciliation engine against its specification.

This file shallowly embeds the engine of the repository — the data model of
`src/models/evaluation.py`, the registry of `src/agents/evaluators/__init__.py`,
the rule-based fallback evaluator of `src/agents/base_evaluator.py`
(`MockEvaluator.evaluate`), and the orchestration pipeline of
`src/agents/orchestrator.py` — as executable Lean definitions, and proves or
refutes the specified properties of the engine.

Modelling conventions:
- Python `float` arithmetic is modelled over `ℚ`; scores are `ℤ`.
- Python `dict` values built in insertion order are modelled as association
  lists with `List.lookup` (first-match) lookup.
- A Python runtime exception escaping a function (`ZeroDivisionError` from a
  `/` with zero denominator, `ValueError` from `min()` on an empty sequence)
  is modelled with `Except PyErr`.
- `list(set(xs))` enumerates a hash set in an order CPython does not fix; it
  is modelled by an explicit enumeration function `setList` constrained to
  return some permutation of the distinct elements of `xs`
  (`(setList xs).Perm (dedupFirst xs)`).
- The static registry (trust weights) enters the synthesizer as a function
  `w : String → ℚ`; `registryWeight` is the concrete table of the repository.
- Strings assembled by f-strings carrying float formatting (debate lines,
  the minority report) are modelled as structured records carrying the same
  fields (`DebateEntry`, `MinorityReport`).
-/

namespace Crucible

/-- `Decision` enum of `src/models/evaluation.py`. -/
inductive Decision where
  | KILL
  | PROCEED_WITH_CAUTION
  | PROCEED
  | STRONG_PROCEED
deriving DecidableEq

/-- `ModelEvaluation` dataclass of `src/models/evaluation.py`: one evaluator's
output for one run. `scores` maps dimension name to an integer score. -/
structure ModelEvaluation where
  model_name : String
  role : String
  scores : List (String × ℤ)
  failure_modes : List String
  pivots_suggested : List String
  confidence : ℚ
  dissenting_opinion : Option String := none
  reasoning : String := ""
deriving DecidableEq

/-- `DimensionScore` dataclass of `src/models/evaluation.py`. -/
structure DimensionScore where
  dimension : String
  score : ℤ
  reasoning : String
  failure_modes : List String
  perspective : String
  model_evaluations : List ModelEvaluation := []
deriving DecidableEq

/-- `Experiment` dataclass of `src/models/evaluation.py`. -/
structure Experiment where
  title : String
  hypothesis : String
  method : String
  success_criteria : String
  estimated_cost : String
  estimated_time : String
deriving DecidableEq

/-- One debate line produced by `CrucibleOrchestrator._run_debate_rounds`
(`orchestrator.py:205`–`210`): the f-string records the dimension, the
minimum, the maximum and the arithmetic mean of the contributed scores. -/
structure DebateEntry where
  dimension : String
  min_score : ℤ
  max_score : ℤ
  avg_score : ℚ
deriving DecidableEq

/-- The minority-report f-string of `_find_minority_report`
(`orchestrator.py:459`–`463`): evaluator name, role, its own mean score, the
consensus score, and the dissenting opinion (or its fixed placeholder). -/
structure MinorityReport where
  model_name : String
  role : String
  model_score : ℚ
  consensus : ℚ
  opinion : String
deriving DecidableEq

/-- `CrucibleVerdict` dataclass of `src/models/evaluation.py`. -/
structure CrucibleVerdict where
  original_concept : String
  consensus_score : ℚ
  decision : Decision
  model_evaluations : List ModelEvaluation
  dimension_scores : List DimensionScore
  key_debates : List DebateEntry
  unified_pivots : List String
  validation_experiments : List Experiment
  critical_risks : List String
  minority_report : Option MinorityReport
  refined_concept : String
deriving DecidableEq

/-- Python runtime exceptions that the orchestrator can let escape. -/
inductive PyErr where
  | zeroDivision
  | valueError
deriving DecidableEq

/-- Does the character list `n` occur at the front of `h`? -/
def matchFront : List Char → List Char → Bool
  | [], _ => true
  | _ :: _, [] => false
  | a :: as, b :: bs => a == b && matchFront as bs

/-- Does the character list `n` occur anywhere in `h`? -/
def subAt : List Char → List Char → Bool
  | n, [] => matchFront n []
  | n, b :: bs => matchFront n (b :: bs) || subAt n bs

/-- Python `needle in hay` on strings: substring containment. -/
def pyIn (needle hay : String) : Bool := subAt needle.data hay.data

/-- Python `str.lower()` (character-wise, as used on ASCII concept text). -/
def pyLower (s : String) : String := ⟨s.data.map Char.toLower⟩

/-- Python `any(w in t for w in words)`. -/
def anyIn (words : List String) (t : String) : Bool := words.any (fun w => pyIn w t)

/-- Python `max(lo, min(hi, n))` clamping as in `MockEvaluator.evaluate` and
`BaseEvaluator._validate_scores`. -/
def pyClamp (lo hi n : ℤ) : ℤ := max lo (min hi n)

/-- Python `round()` on the exact rational value: round half to even. -/
def pyRound (q : ℚ) : ℤ :=
  let f : ℤ := ⌊q⌋
  let r : ℚ := q - (f : ℚ)
  if r < 1 / 2 then f
  else if 1 / 2 < r then f + 1
  else if f % 2 = 0 then f else f + 1

/-- First occurrences of each element, in order: the stable deduplication the
spec describes (also the order of Python `dict.fromkeys`), helper `seen` is
the set of elements already emitted. -/
def dedupFirstAux (seen : List String) : List String → List String
  | [] => []
  | a :: l => if a ∈ seen then dedupFirstAux seen l else a :: dedupFirstAux (a :: seen) l

/-- First occurrences of each element, in order. -/
def dedupFirst (l : List String) : List String := dedupFirstAux [] l

/-- `EVALUATOR_MODELS` of `src/agents/evaluators/__init__.py`, in insertion
order: evaluator name, role, trust weight. -/
def evaluatorModels : List (String × String × ℚ) :=
  [("claude_opus", ("deep_reasoning_critic", 3 / 2)),
   ("gpt_o3", ("vc_skeptic", 13 / 10)),
   ("gemini_flash", ("speed_analyst", 1)),
   ("deepseek_r1", ("technical_auditor", 6 / 5)),
   ("grok", ("contrarian", 11 / 10)),
   ("kimi", ("apac_expansion", 4 / 5)),
   ("qwen", ("cost_optimizer", 1))]

/-- The registered evaluator names (`self.evaluators.keys()`), in insertion
order. -/
def registryKeys : List String := evaluatorModels.map (fun p => p.1)

/-- `EVALUATOR_MODELS[name]["role"]`. -/
def registryRole (name : String) : String :=
  ((evaluatorModels.lookup name).map (fun p => p.1)).getD ""

/-- `EVALUATOR_MODELS[name]["weight"]`. -/
def registryWeight (name : String) : ℚ :=
  ((evaluatorModels.lookup name).map (fun p => p.2)).getD 0

/-- `DIMENSION_MODEL_PRIORITY.get(dimension, [])` of
`src/agents/evaluators/__init__.py`. -/
def dimensionModelPriority (dim : String) : List String :=
  if dim = "Market Viability" then ["gpt_o3", "gemini_flash", "claude_opus"]
  else if dim = "Technical Feasibility" then ["deepseek_r1", "claude_opus", "grok"]
  else if dim = "Unit Economics" then ["qwen", "gpt_o3", "claude_opus"]
  else if dim = "Competitive Moats" then ["gpt_o3", "grok", "claude_opus"]
  else if dim = "Scaling Bottlenecks" then ["deepseek_r1", "kimi", "claude_opus"]
  else []

/-- `CrucibleOrchestrator.DIMENSIONS` (`orchestrator.py:27`–`33`). -/
def crucibleDimensions : List String :=
  ["Market Viability", "Technical Feasibility", "Unit Economics",
   "Competitive Moats", "Scaling Bottlenecks"]

/-- The per-dimension rule-based score of `MockEvaluator.evaluate`
(`base_evaluator.py:90`–`124`): baseline 5, fixed keyword deltas on the
lower-cased concept, before clamping. -/
def mockDimScore (dim conceptLower : String) : ℤ :=
  if pyIn "Market Viability" dim then
    5 + (if anyIn ["revenue", "customers", "validated"] conceptLower then 2 else 0)
      + (if anyIn ["enterprise", "global", "platform"] conceptLower then 1 else 0)
      - (if pyIn "niche" conceptLower || pyIn "small" conceptLower then 2 else 0)
  else if pyIn "Technical Feasibility" dim then
    5 + (if anyIn ["proven", "existing", "simple"] conceptLower then 2 else 0)
      - (if anyIn ["ai", "blockchain", "quantum"] conceptLower then 2 else 0)
  else if pyIn "Unit Economics" dim then
    5 + (if anyIn ["saas", "subscription", "recurring"] conceptLower then 2 else 0)
      - (if anyIn ["free", "ad-supported"] conceptLower then 2 else 0)
  else if pyIn "Competitive Moats" dim then
    5 + (if anyIn ["network", "proprietary", "patent"] conceptLower then 2 else 0)
      - (if pyIn "commodity" conceptLower then 2 else 0)
  else if pyIn "Scaling Bottlenecks" dim then
    5 + (if anyIn ["automated", "platform", "cloud"] conceptLower then 2 else 0)
      - (if anyIn ["manual", "custom"] conceptLower then 2 else 0)
  else 5

/-- `MockEvaluator.evaluate` (`base_evaluator.py:83`–`142`): the rule-based
fallback evaluator. -/
def mockEvaluate (model_name role concept : String) (dimensions : List String) :
    ModelEvaluation :=
  let cl := pyLower concept
  { model_name := model_name
    role := role
    scores := dimensions.map (fun dim => (dim, pyClamp 1 10 (mockDimScore dim cl)))
    failure_modes :=
      ["Mock evaluation - API not available for " ++ model_name,
       "Scores based on keyword analysis only"]
    pivots_suggested :=
      ["Enable API access for deeper multi-model analysis",
       "Provide more details in concept description"]
    confidence := 3 / 10
    dissenting_opinion := none
    reasoning := "Mock " ++ role ++ " evaluation using rule-based analysis (API unavailable)" }

/-- `models_to_use = selected_models or list(self.evaluators.keys())`
(`orchestrator.py:151`): `None` and the empty list are both falsy in Python,
so each selects the full registry. -/
def modelsToUse (keys : List String) (selected : Option (List String)) : List String :=
  match selected with
  | none => keys
  | some [] => keys
  | some l => l

/-- `_run_parallel_evaluation` (`orchestrator.py:136`–`174`): names not in
`self.evaluators` are skipped (`orchestrator.py:156`), each launched
evaluator either returns a `ModelEvaluation` or raises (modelled by
`evalOf`), and raising evaluators are filtered out after the gather. -/
def runParallelEvaluation (keys : List String)
    (evalOf : String → Except String ModelEvaluation)
    (selected : Option (List String)) : List ModelEvaluation :=
  ((modelsToUse keys selected).filter (fun n => keys.contains n)).filterMap
    (fun n => (evalOf n).toOption)

/-- The scores contributed to one dimension (`orchestrator.py:196`–`199`). -/
def debateScores (dim : String) (evals : List ModelEvaluation) : List ℤ :=
  evals.filterMap (fun e => e.scores.lookup dim)

/-- The debate check for one dimension (`orchestrator.py:201`–`210`). -/
def debateFor (dim : String) (evals : List ModelEvaluation) : Option DebateEntry :=
  match debateScores dim evals with
  | [] => none
  | s :: rest =>
    let mn := rest.foldl min s
    let mx := rest.foldl max s
    if 3 ≤ mx - mn then
      some ⟨dim, mn, mx,
        (((s :: rest).map (fun z => (z : ℚ))).sum) / (((s :: rest).length : ℚ))⟩
    else none

/-- `_run_debate_rounds` (`orchestrator.py:176`–`216`). -/
def runDebateRounds (evals : List ModelEvaluation) : List DebateEntry :=
  crucibleDimensions.filterMap (fun dim => debateFor dim evals)

/-- `_get_dimension_perspective` (`orchestrator.py:307`–`323`). -/
def getDimensionPerspective (dim : String) (modelEvals : List ModelEvaluation) : String :=
  match (dimensionModelPriority dim).findSome?
      (fun name =>
        if modelEvals.any (fun e => e.model_name == name) then some (registryRole name)
        else none) with
  | some r => r
  | none =>
    match modelEvals with
    | [] => "consensus"
    | e :: _ => e.role

/-- `_synthesize_reasoning` (`orchestrator.py:325`–`343`): priority-first
reasoning truncated to 200 characters; an empty reasoning string is falsy. -/
def synthesizeReasoning (dim : String) (modelEvals : List ModelEvaluation) : String :=
  match modelEvals with
  | [] => "No evaluations available"
  | e0 :: _ =>
    match (dimensionModelPriority dim).findSome?
        (fun name => modelEvals.findSome?
          (fun e =>
            if e.model_name == name && e.reasoning != "" then some ⟨e.reasoning.data.take 200⟩
            else none)) with
    | some r => r
    | none => if e0.reasoning != "" then ⟨e0.reasoning.data.take 200⟩ else "See model evaluations"

/-- The evaluators contributing a score to a dimension, paired with that
score: the lists `scores`/`weights`/`model_evals` gathered by the loop at
`orchestrator.py:243`–`250`. -/
def contributorsFor (dim : String) (evals : List ModelEvaluation) :
    List (ModelEvaluation × ℤ) :=
  evals.filterMap (fun e => (e.scores.lookup dim).map (fun s => (e, s)))

/-- The per-dimension consensus of `_synthesize_verdict`
(`orchestrator.py:243`–`267`): weighted average over registry weight ×
confidence, `round()`ed.  The division at `orchestrator.py:254` raises
`ZeroDivisionError` when the weights sum to zero; there is no guard.
`list(set(all_failure_modes))[:3]` is modelled by `setList`, the unspecified
hash-set enumeration. -/
def dimConsensus (setList : List String → List String) (w : String → ℚ)
    (dim : String) (evals : List ModelEvaluation) :
    Except PyErr (Option DimensionScore) :=
  let contribs := contributorsFor dim evals
  if contribs.isEmpty then .ok none
  else
    let scores := contribs.map (fun p => p.2)
    let weights := contribs.map (fun p => w p.1.model_name * p.1.confidence)
    let denom := weights.sum
    if denom = 0 then .error .zeroDivision
    else
      let weighted := ((List.zipWith (fun (s : ℤ) (wt : ℚ) => (s : ℚ) * wt) scores weights).sum) / denom
      let modelEvals := contribs.map (fun p => p.1)
      let allFailureModes := (contribs.map (fun p => p.1.failure_modes)).flatten
      .ok (some
        { dimension := dim
          score := pyRound weighted
          reasoning := synthesizeReasoning dim modelEvals
          failure_modes := (setList allFailureModes).take 3
          perspective := getDimensionPerspective dim modelEvals
          model_evaluations := modelEvals })

/-- `_make_decision` (`orchestrator.py:345`–`363`; the method of the same
name in `src/crucible.py:460`–`486` is line-for-line the same logic):
threshold chain over the overall score, the minimum dimension score and the
count of dimensions scoring at most 3.  `min()` on an empty sequence raises
`ValueError`. -/
def makeDecision (overall : ℚ) (ds : List DimensionScore) : Except PyErr Decision :=
  match ds.map (fun d => d.score) with
  | [] => .error .valueError
  | s :: rest =>
    let min_score := rest.foldl min s
    let critically_low := ds.filter (fun d => d.score ≤ 3)
    .ok (if 8 ≤ overall ∧ 6 ≤ min_score then .STRONG_PROCEED
      else if 7 ≤ overall ∧ 4 ≤ min_score then .PROCEED
      else if 6 ≤ overall ∧ 3 ≤ min_score then .PROCEED_WITH_CAUTION
      else if 5 ≤ overall ∧ critically_low.length ≤ 1 then .PROCEED_WITH_CAUTION
      else .KILL)

/-- `_synthesize_pivots` (`orchestrator.py:365`–`373`): concatenation in
evaluator order, `dict.fromkeys` deduplication (first occurrence), top 3. -/
def synthesizePivots (evals : List ModelEvaluation) : List String :=
  (dedupFirst ((evals.map (fun e => e.pivots_suggested)).flatten)).take 3

/-- The Customer Discovery Sprint template (`orchestrator.py:382`–`389`). -/
def marketExperiment : Experiment :=
  { title := "Customer Discovery Sprint"
    hypothesis := "Target customers have urgent need and willingness to pay"
    method := "Interview 20-30 target customers, measure genuine interest and LOI commitment"
    success_criteria := "50%+ express strong interest, 20%+ willing to prepay or sign LOI"
    estimated_cost := "$500-2000"
    estimated_time := "2-3 weeks" }

/-- The Technical Proof of Concept template (`orchestrator.py:391`–`398`). -/
def technicalExperiment : Experiment :=
  { title := "Technical Proof of Concept"
    hypothesis := "Core technology delivers promised value at acceptable cost/performance"
    method := "Build minimal prototype of hardest component, measure performance"
    success_criteria := "Achieves 80%+ of promised capability within 2x cost budget"
    estimated_cost := "$2000-10000"
    estimated_time := "2-4 weeks" }

/-- The Unit Economics Stress Test template (`orchestrator.py:400`–`407`). -/
def economicsExperiment : Experiment :=
  { title := "Unit Economics Stress Test"
    hypothesis := "Unit economics are profitable at scale with conservative assumptions"
    method := "Build detailed financial model, stress test key variables"
    success_criteria := "LTV/CAC > 3, payback < 18 months, positive unit economics by month 12"
    estimated_cost := "$500-1000"
    estimated_time := "1 week" }

/-- The Competitive Differentiation Test template (`orchestrator.py:409`–`416`). -/
def moatsExperiment : Experiment :=
  { title := "Competitive Differentiation Test"
    hypothesis := "Our unique value proposition is defensible and meaningful"
    method := "A/B test our pitch vs competitor alternatives with target customers"
    success_criteria := "60%+ choose our approach when presented with alternatives"
    estimated_cost := "$1000-3000"
    estimated_time := "2 weeks" }

/-- The Scaling Simulation template (`orchestrator.py:418`–`425`). -/
def scalingExperiment : Experiment :=
  { title := "Scaling Simulation"
    hypothesis := "Operations and costs scale sub-linearly with growth"
    method := "Model operational requirements at 10x and 100x scale"
    success_criteria := "Variable costs < 30% of revenue at scale"
    estimated_cost := "$500-2000"
    estimated_time := "1-2 weeks" }

/-- The generic Assumption Validation padding template
(`orchestrator.py:428`–`436`). -/
def genericExperiment : Experiment :=
  { title := "Assumption Validation"
    hypothesis := "Critical business assumptions hold under scrutiny"
    method := "Identify and systematically test top 3 riskiest assumptions"
    success_criteria := "All critical assumptions validated or alternative paths identified"
    estimated_cost := "$1000-5000"
    estimated_time := "2-4 weeks" }

/-- The substring-keyed template dispatch of `_generate_experiments`
(`orchestrator.py:381`–`425`); a dimension matching no template contributes
nothing. -/
def experimentFor (dim : String) : Option Experiment :=
  if pyIn "Market" dim then some marketExperiment
  else if pyIn "Technical" dim then some technicalExperiment
  else if pyIn "Economics" dim then some economicsExperiment
  else if pyIn "Moats" dim then some moatsExperiment
  else if pyIn "Scaling" dim then some scalingExperiment
  else none

/-- Stable insertion step: the new element goes after already-placed elements
of equal score, matching the stability of Python `sorted`. -/
def insertByScore (d : DimensionScore) : List DimensionScore → List DimensionScore
  | [] => [d]
  | e :: es => if d.score < e.score then d :: e :: es else e :: insertByScore d es

/-- `sorted(dimension_scores, key=lambda x: x.score)` (`orchestrator.py:378`):
stable ascending sort by score. -/
def sortByScore (l : List DimensionScore) : List DimensionScore :=
  l.foldl (fun acc d => insertByScore d acc) []

/-- `_generate_experiments` (`orchestrator.py:375`–`438`): three lowest
dimensions, templates by substring match, padded with the generic template
to exactly 3. -/
def generateExperiments (ds : List DimensionScore) : List Experiment :=
  let weak := (sortByScore ds).take 3
  let exps := weak.filterMap (fun d => experimentFor d.dimension)
  (exps ++ List.replicate (3 - exps.length) genericExperiment).take 3

/-- `_identify_risks` (`orchestrator.py:440`–`447`): up to the first 2
failure modes of every dimension scoring below 6, prefixed with the
dimension in brackets, truncated to 5. -/
def identifyRisks (ds : List DimensionScore) : List String :=
  ((ds.map (fun d =>
      if d.score < 6 then
        (d.failure_modes.take 2).map (fun fm => "[" ++ d.dimension ++ "] " ++ fm)
      else [])).flatten).take 5

/-- `sum(eval.scores.values()) / len(eval.scores) if eval.scores else 0`
(`orchestrator.py:456`): an evaluator with no scores gets mean 0. -/
def evalAvgScore (e : ModelEvaluation) : ℚ :=
  if e.scores.isEmpty then 0
  else ((e.scores.map (fun p => (p.2 : ℚ))).sum) / ((e.scores.length : ℚ))

/-- `eval.dissenting_opinion or 'See detailed evaluation for reasoning.'`
(`orchestrator.py:462`): `None` and the empty string are falsy. -/
def minorityText (e : ModelEvaluation) : String :=
  match e.dissenting_opinion with
  | some s => if s = "" then "See detailed evaluation for reasoning." else s
  | none => "See detailed evaluation for reasoning."

/-- `_find_minority_report` (`orchestrator.py:449`–`465`): the first
evaluator, in evaluation order, whose own mean deviates from the consensus
by at least 3. -/
def findMinorityReport (evals : List ModelEvaluation) (consensus : ℚ) :
    Option MinorityReport :=
  match evals with
  | [] => none
  | e :: rest =>
    if 3 ≤ |evalAvgScore e - consensus| then
      some ⟨e.model_name, e.role, evalAvgScore e, consensus, minorityText e⟩
    else findMinorityReport rest consensus

/-- `_refine_concept` (`orchestrator.py:467`–`479`). -/
def refineConcept (concept : String) (pivots : List String) (decision : Decision) :
    String :=
  if decision = .KILL then
    "KILL: " ++ concept ++ " - Fundamental issues require complete rethink."
  else if !pivots.isEmpty then
    concept ++ " PIVOTS: " ++ String.intercalate " AND " (pivots.take 2)
  else concept

/-- The dimension loop of `_synthesize_verdict` (`orchestrator.py:237`–`267`):
the consensus of each dimension in order; an exception raised at any
dimension aborts the loop. -/
def collectDims (setList : List String → List String) (w : String → ℚ)
    (evals : List ModelEvaluation) : List String → Except PyErr (List (Option DimensionScore))
  | [] => .ok []
  | dim :: rest =>
    match dimConsensus setList w dim evals with
    | .error e => .error e
    | .ok x =>
      match collectDims setList w evals rest with
      | .error e => .error e
      | .ok xs => .ok (x :: xs)

/-- `_synthesize_verdict` (`orchestrator.py:218`–`305`).  The division
`sum(ds.score ...) / len(dimension_scores)` at `orchestrator.py:270` raises
`ZeroDivisionError` when no dimension produced a verdict; there is no
zero-evaluator guard. -/
def synthesizeVerdict (setList : List String → List String) (w : String → ℚ)
    (concept : String) (evals : List ModelEvaluation) (debates : List DebateEntry) :
    Except PyErr CrucibleVerdict :=
  match collectDims setList w evals crucibleDimensions with
  | .error e => .error e
  | .ok dsOpt =>
    let ds := dsOpt.filterMap id
    if ds.isEmpty then .error .zeroDivision
    else
      let overall : ℚ := ((ds.map (fun d => (d.score : ℚ))).sum) / ((ds.length : ℚ))
      match makeDecision overall ds with
      | .error e => .error e
      | .ok decision =>
        let pivots := synthesizePivots evals
        .ok
          { original_concept := concept
            consensus_score := overall
            decision := decision
            model_evaluations := evals
            dimension_scores := ds
            key_debates := debates
            unified_pivots := pivots
            validation_experiments := generateExperiments ds
            critical_risks := identifyRisks ds
            minority_report := findMinorityReport evals overall
            refined_concept := refineConcept concept pivots decision }

/-- `run_adversarial_evaluation` (`orchestrator.py:104`–`134`): fan-out,
debate detection, synthesis.  `evalOf` gives each registered evaluator's
result (success or raised exception) for this concept. -/
def runAdversarialEvaluation (setList : List String → List String) (w : String → ℚ)
    (keys : List String) (evalOf : String → Except String ModelEvaluation)
    (concept : String) (selected : Option (List String)) :
    Except PyErr CrucibleVerdict :=
  let evals := runParallelEvaluation keys evalOf selected
  let debates := runDebateRounds evals
  synthesizeVerdict setList w concept evals debates

/-- The all-mock orchestrator (`_initialize_evaluators` with mock fallback):
every registered name answers with `MockEvaluator.evaluate`. -/
def mockEvalOf (concept : String) (name : String) : Except String ModelEvaluation :=
  .ok (mockEvaluate name (registryRole name) concept crucibleDimensions)

/-- A run of the all-mock orchestrator over the real registry. -/
def runMockCrucible (setList : List String → List String) (concept : String)
    (selected : Option (List String)) : Except PyErr CrucibleVerdict :=
  runAdversarialEvaluation setList registryWeight registryKeys (mockEvalOf concept)
    concept selected

end Crucible

namespace Crucible

/-- The weighted denominator of a dimension: the sum of registry weight ×
confidence over the contributing evaluators (`sum(weights)` at
`orchestrator.py:254`). -/
def weightDenom (w : String → ℚ) (dim : String) (evals : List ModelEvaluation) : ℚ :=
  ((contributorsFor dim evals).map (fun p => w p.1.model_name * p.1.confidence)).sum

/-- The weight×confidence-weighted mean of the scores contributed to a
dimension (the `weighted_score` of `orchestrator.py:254`). -/
def weightedMeanFor (w : String → ℚ) (dim : String) (evals : List ModelEvaluation) : ℚ :=
  (((contributorsFor dim evals).map
      (fun p => (p.2 : ℚ) * (w p.1.model_name * p.1.confidence))).sum) /
    weightDenom w dim evals

/-- The minority-report record built at `orchestrator.py:459`–`463`. -/
def reportOf (e : ModelEvaluation) (c : ℚ) : MinorityReport :=
  ⟨e.model_name, e.role, evalAvgScore e, c, minorityText e⟩

/-- The minimum dimension score as the code computes it
(`min(ds.score for ds in dimension_scores)` at `orchestrator.py:351`):
`none` on an empty list, where Python raises `ValueError`. -/
def minScoreOf (ds : List DimensionScore) : Option ℤ :=
  match ds.map (fun d => d.score) with
  | [] => none
  | s :: rest => some (rest.foldl min s)

/-- The number of dimensions scoring at most 3 (`orchestrator.py:352`). -/
def criticallyLowCount (ds : List DimensionScore) : ℕ :=
  (ds.filter (fun d => d.score ≤ 3)).length

/-- The decision table exactly as the spec states it (§4.5), as a pure
function of overall score, minimum dimension score and critically-low
count, first match wins.  Stated from the spec for comparison with
`makeDecision`, which is translated from the code. -/
def decisionTableSpec (overall : ℚ) (minScore : ℤ) (criticallyLow : ℕ) : Decision :=
  if 8 ≤ overall ∧ 6 ≤ minScore then .STRONG_PROCEED
  else if 7 ≤ overall ∧ 4 ≤ minScore then .PROCEED
  else if 6 ≤ overall ∧ 3 ≤ minScore then .PROCEED_WITH_CAUTION
  else if 5 ≤ overall ∧ criticallyLow ≤ 1 then .PROCEED_WITH_CAUTION
  else .KILL

section FoldLemmas

variable {α : Type} [LinearOrder α]

lemma foldl_min_le_start : ∀ (l : List α) (s : α), l.foldl min s ≤ s := by
  intro l
  induction l with
  | nil => intro s; simp
  | cons a t ih => intro s; exact le_trans (ih (min s a)) (min_le_left s a)

lemma foldl_min_le_mem : ∀ (l : List α) (s : α), ∀ x ∈ l, l.foldl min s ≤ x := by
  intro l
  induction l with
  | nil => intro s x hx; simp at hx
  | cons a t ih =>
    intro s x hx
    rcases List.mem_cons.1 hx with h | h
    · subst h; exact le_trans (foldl_min_le_start t (min s x)) (min_le_right s x)
    · exact ih (min s a) x h

lemma foldl_min_eq_start_or_mem : ∀ (l : List α) (s : α),
    l.foldl min s = s ∨ l.foldl min s ∈ l := by
  intro l
  induction l with
  | nil => intro s; simp
  | cons a t ih =>
    intro s
    rcases ih (min s a) with h | h
    · rcases min_cases s a with ⟨hm, _⟩ | ⟨hm, _⟩
      · left; simp only [List.foldl_cons]; rw [h, hm]
      · right; simp only [List.foldl_cons]; rw [h, hm]; exact List.mem_cons_self a t
    · right; exact List.mem_cons_of_mem a h

lemma start_le_foldl_max : ∀ (l : List α) (s : α), s ≤ l.foldl max s := by
  intro l
  induction l with
  | nil => intro s; simp
  | cons a t ih => intro s; exact le_trans (le_max_left s a) (ih (max s a))

lemma mem_le_foldl_max : ∀ (l : List α) (s : α), ∀ x ∈ l, x ≤ l.foldl max s := by
  intro l
  induction l with
  | nil => intro s x hx; simp at hx
  | cons a t ih =>
    intro s x hx
    rcases List.mem_cons.1 hx with h | h
    · subst h; exact le_trans (le_max_right s x) (start_le_foldl_max t (max s x))
    · exact ih (max s a) x h

lemma foldl_max_eq_start_or_mem : ∀ (l : List α) (s : α),
    l.foldl max s = s ∨ l.foldl max s ∈ l := by
  intro l
  induction l with
  | nil => intro s; simp
  | cons a t ih =>
    intro s
    rcases ih (max s a) with h | h
    · rcases max_cases s a with ⟨hm, _⟩ | ⟨hm, _⟩
      · left; simp only [List.foldl_cons]; rw [h, hm]
      · right; simp only [List.foldl_cons]; rw [h, hm]; exact List.mem_cons_self a t
    · right; exact List.mem_cons_of_mem a h

end FoldLemmas

lemma mem_dedupFirstAux : ∀ (l seen : List String) (x : String),
    x ∈ dedupFirstAux seen l ↔ x ∈ l ∧ x ∉ seen := by
  intro l
  induction l with
  | nil => intro seen x; simp [dedupFirstAux]
  | cons a t ih =>
    intro seen x
    by_cases hc : a ∈ seen
    · rw [show dedupFirstAux seen (a :: t) = dedupFirstAux seen t from by
        simp [dedupFirstAux, hc]]
      rw [ih, List.mem_cons]
      constructor
      · rintro ⟨hx, hs⟩; exact ⟨Or.inr hx, hs⟩
      · rintro ⟨hx | hx, hs⟩
        · subst hx; exact absurd hc hs
        · exact ⟨hx, hs⟩
    · rw [show dedupFirstAux seen (a :: t) = a :: dedupFirstAux (a :: seen) t from by
        simp [dedupFirstAux, hc]]
      rw [List.mem_cons, ih, List.mem_cons, List.mem_cons]
      constructor
      · rintro (hx | ⟨hx, hs⟩)
        · subst hx; exact ⟨Or.inl rfl, hc⟩
        · exact ⟨Or.inr hx, fun h => hs (Or.inr h)⟩
      · rintro ⟨hx | hx, hs⟩
        · exact Or.inl hx
        · by_cases hxa : x = a
          · exact Or.inl hxa
          · exact Or.inr ⟨hx, fun h => h.elim hxa hs⟩

lemma nodup_dedupFirstAux : ∀ (l seen : List String), (dedupFirstAux seen l).Nodup := by
  intro l
  induction l with
  | nil => intro seen; simp [dedupFirstAux]
  | cons a t ih =>
    intro seen
    by_cases hc : a ∈ seen
    · rw [show dedupFirstAux seen (a :: t) = dedupFirstAux seen t from by
        simp [dedupFirstAux, hc]]
      exact ih seen
    · rw [show dedupFirstAux seen (a :: t) = a :: dedupFirstAux (a :: seen) t from by
        simp [dedupFirstAux, hc]]
      rw [List.nodup_cons]
      refine ⟨fun hmem => ?_, ih (a :: seen)⟩
      exact ((mem_dedupFirstAux t (a :: seen) a).1 hmem).2 (List.mem_cons_self a seen)

lemma mem_dedupFirst (l : List String) (x : String) : x ∈ dedupFirst l ↔ x ∈ l := by
  simp [dedupFirst, mem_dedupFirstAux]

lemma nodup_dedupFirst (l : List String) : (dedupFirst l).Nodup :=
  nodup_dedupFirstAux l []

lemma pyRound_intCast (n : ℤ) : pyRound (n : ℚ) = n := by
  simp [pyRound]

lemma pyRound_cases (q : ℚ) : pyRound q = ⌊q⌋ ∨ (pyRound q = ⌊q⌋ + 1 ∧ 1 / 2 ≤ q - (⌊q⌋ : ℚ)) := by
  simp only [pyRound]
  split
  · exact Or.inl rfl
  · rename_i h
    split
    · exact Or.inr ⟨rfl, by linarith [not_lt.1 h]⟩
    · split
      · exact Or.inl rfl
      · exact Or.inr ⟨rfl, not_lt.1 h⟩

lemma pyRound_nearest (q : ℚ) : |q - (pyRound q : ℚ)| ≤ 1 / 2 := by
  have h0 : (0 : ℚ) ≤ q - (⌊q⌋ : ℚ) := by have := Int.floor_le q; linarith
  have h1 : q - (⌊q⌋ : ℚ) < 1 := by have := Int.lt_floor_add_one q; linarith
  simp only [pyRound]
  split
  · rename_i h
    rw [abs_of_nonneg h0]
    linarith
  · rename_i h
    split
    · rename_i h2
      push_cast
      rw [abs_of_nonpos (by linarith)]
      linarith
    · rename_i h2
      have heq : q - (⌊q⌋ : ℚ) = 1 / 2 := le_antisymm (not_lt.1 h2) (not_lt.1 h)
      split
      · rw [abs_of_nonneg h0]
        linarith
      · push_cast
        rw [abs_of_nonpos (by linarith)]
        linarith

lemma pyRound_bounds (a b : ℤ) (q : ℚ) (ha : (a : ℚ) ≤ q) (hb : q ≤ (b : ℚ)) :
    a ≤ pyRound q ∧ pyRound q ≤ b := by
  have hfl : a ≤ ⌊q⌋ := Int.le_floor.2 ha
  have hqb : ⌊q⌋ ≤ b := by
    have hle : (⌊q⌋ : ℚ) ≤ (b : ℚ) := le_trans (Int.floor_le q) hb
    exact_mod_cast hle
  rcases pyRound_cases q with h | ⟨h, hhalf⟩
  · rw [h]; exact ⟨hfl, hqb⟩
  · rw [h]
    refine ⟨by omega, ?_⟩
    have hlt : (⌊q⌋ : ℚ) < q := by linarith
    have hltb : (⌊q⌋ : ℚ) < (b : ℚ) := lt_of_lt_of_le hlt hb
    have : ⌊q⌋ < b := by exact_mod_cast hltb
    omega

lemma pyClamp_eq_self (n : ℤ) (h1 : 1 ≤ n) (h2 : n ≤ 10) : pyClamp 1 10 n = n := by
  simp [pyClamp]
  omega

lemma pyClamp_mem (lo hi n : ℤ) (h : lo ≤ hi) : lo ≤ pyClamp lo hi n ∧ pyClamp lo hi n ≤ hi := by
  simp [pyClamp]
  omega

lemma zipWith_map_same {α β γ δ : Type} (f : β → γ → δ) (g : α → β) (h : α → γ) (l : List α) :
    List.zipWith f (l.map g) (l.map h) = l.map (fun x => f (g x) (h x)) := by
  induction l with
  | nil => rfl
  | cons a t ih => simp [ih]

lemma weighted_sum_bounds (l : List (ModelEvaluation × ℤ)) (w : String → ℚ) (a b : ℚ)
    (h : ∀ p ∈ l, a ≤ (p.2 : ℚ) ∧ (p.2 : ℚ) ≤ b ∧ 0 ≤ w p.1.model_name * p.1.confidence) :
    a * (l.map (fun p => w p.1.model_name * p.1.confidence)).sum ≤
      (l.map (fun p => (p.2 : ℚ) * (w p.1.model_name * p.1.confidence))).sum ∧
    (l.map (fun p => (p.2 : ℚ) * (w p.1.model_name * p.1.confidence))).sum ≤
      b * (l.map (fun p => w p.1.model_name * p.1.confidence)).sum := by
  induction l with
  | nil => simp
  | cons p t ih =>
    obtain ⟨hpa, hpb, hpw⟩ := h p (List.mem_cons_self p t)
    obtain ⟨iha, ihb⟩ := ih (fun q hq => h q (List.mem_cons_of_mem p hq))
    simp only [List.map_cons, List.sum_cons, mul_add]
    constructor
    · exact add_le_add (by nlinarith) iha
    · exact add_le_add (by nlinarith) ihb

end Crucible

namespace Crucible

lemma dimConsensus_of_contribs (setList : List String → List String) (w : String → ℚ)
    (dim : String) (evals : List ModelEvaluation) (p0 : ModelEvaluation × ℤ)
    (ps : List (ModelEvaluation × ℤ)) (hc : contributorsFor dim evals = p0 :: ps)
    (hd : weightDenom w dim evals ≠ 0) :
    dimConsensus setList w dim evals =
      .ok (some
        { dimension := dim
          score := pyRound (weightedMeanFor w dim evals)
          reasoning := synthesizeReasoning dim ((contributorsFor dim evals).map (fun p => p.1))
          failure_modes :=
            (setList (((contributorsFor dim evals).map (fun p => p.1.failure_modes)).flatten)).take 3
          perspective := getDimensionPerspective dim ((contributorsFor dim evals).map (fun p => p.1))
          model_evaluations := (contributorsFor dim evals).map (fun p => p.1) }) := by
  unfold dimConsensus
  rw [hc]
  rw [if_neg (by simp)]
  rw [if_neg (by rw [← hc]; exact hd)]
  rw [← hc]
  rw [zipWith_map_same (fun (s : ℤ) (wt : ℚ) => (s : ℚ) * wt)
    (fun (p : ModelEvaluation × ℤ) => p.2) (fun p => w p.1.model_name * p.1.confidence)]
  rfl

lemma dimConsensus_zero_denom (setList : List String → List String) (w : String → ℚ)
    (dim : String) (evals : List ModelEvaluation)
    (hne : contributorsFor dim evals ≠ [])
    (hd : weightDenom w dim evals = 0) :
    dimConsensus setList w dim evals = .error .zeroDivision := by
  unfold weightDenom at hd
  unfold dimConsensus
  rw [if_neg (by simp [List.isEmpty_iff, hne]), if_pos hd]

lemma dimConsensus_no_contribs (setList : List String → List String) (w : String → ℚ)
    (dim : String) (evals : List ModelEvaluation)
    (hc : contributorsFor dim evals = []) :
    dimConsensus setList w dim evals = .ok none := by
  unfold dimConsensus
  rw [if_pos (by simp [hc])]

lemma dimConsensus_ok_some_fields (setList : List String → List String) (w : String → ℚ)
    (dim : String) (evals : List ModelEvaluation) (d : DimensionScore)
    (h : dimConsensus setList w dim evals = .ok (some d)) :
    d.dimension = dim ∧
    d.failure_modes =
      (setList (((contributorsFor dim evals).map (fun p => p.1.failure_modes)).flatten)).take 3 ∧
    d.model_evaluations = (contributorsFor dim evals).map (fun p => p.1) ∧
    d.score = pyRound (weightedMeanFor w dim evals) := by
  by_cases hnil : contributorsFor dim evals = []
  · rw [dimConsensus_no_contribs setList w dim evals hnil] at h
    simp at h
  · obtain ⟨p0, ps, hc⟩ := List.exists_cons_of_ne_nil hnil
    by_cases hd2 : weightDenom w dim evals = 0
    · rw [dimConsensus_zero_denom setList w dim evals hnil hd2] at h
      exact absurd h (by simp)
    · rw [dimConsensus_of_contribs setList w dim evals p0 ps hc hd2] at h
      obtain rfl := (Option.some.inj (Except.ok.inj h)).symm
      exact ⟨rfl, rfl, rfl, rfl⟩

lemma makeDecision_cons (overall : ℚ) (d0 : DimensionScore) (rest : List DimensionScore) :
    makeDecision overall (d0 :: rest) =
      .ok (decisionTableSpec overall ((rest.map (fun d => d.score)).foldl min d0.score)
        (criticallyLowCount (d0 :: rest))) := rfl

lemma synthesizeVerdict_fields (setList : List String → List String) (w : String → ℚ)
    (concept : String) (evals : List ModelEvaluation) (debates : List DebateEntry)
    (dsOpt : List (Option DimensionScore)) (d0 : DimensionScore) (rest : List DimensionScore)
    (hcol : collectDims setList w evals crucibleDimensions = .ok dsOpt)
    (hds : dsOpt.filterMap id = d0 :: rest) :
    ∃ v, synthesizeVerdict setList w concept evals debates = .ok v ∧
      v.original_concept = concept ∧
      v.model_evaluations = evals ∧
      v.dimension_scores = d0 :: rest ∧
      v.key_debates = debates ∧
      v.consensus_score =
        (((d0 :: rest).map (fun d => (d.score : ℚ))).sum) / (((d0 :: rest).length : ℚ)) ∧
      v.minority_report = findMinorityReport evals v.consensus_score ∧
      v.unified_pivots = synthesizePivots evals ∧
      v.validation_experiments = generateExperiments (d0 :: rest) ∧
      v.critical_risks = identifyRisks (d0 :: rest) ∧
      makeDecision v.consensus_score (d0 :: rest) = .ok v.decision ∧
      v.refined_concept = refineConcept concept (synthesizePivots evals) v.decision := by
  unfold synthesizeVerdict
  rw [hcol]
  simp only [hds, List.isEmpty_cons, Bool.false_eq_true, if_false, makeDecision_cons]
  refine ⟨_, rfl, rfl, rfl, rfl, rfl, rfl, rfl, rfl, rfl, rfl, rfl, rfl⟩

lemma synthesizeVerdict_debates_only (setList : List String → List String) (w : String → ℚ)
    (concept : String) (evals : List ModelEvaluation) (d1 d2 : List DebateEntry) :
    (synthesizeVerdict setList w concept evals d1).map (fun v => v.dimension_scores) =
      (synthesizeVerdict setList w concept evals d2).map (fun v => v.dimension_scores) ∧
    (synthesizeVerdict setList w concept evals d1).map (fun v => v.consensus_score) =
      (synthesizeVerdict setList w concept evals d2).map (fun v => v.consensus_score) := by
  unfold synthesizeVerdict
  rcases hcol : collectDims setList w evals crucibleDimensions with e | dsOpt
  · simp
  · simp only []
    rcases hds : dsOpt.filterMap id with _ | ⟨a, t⟩
    · simp
    · simp only [List.isEmpty_cons, Bool.false_eq_true, if_false, makeDecision_cons]
      exact ⟨rfl, rfl⟩

lemma findMinorityReport_cons_pos (e : ModelEvaluation) (rest : List ModelEvaluation)
    (c : ℚ) (h : 3 ≤ |evalAvgScore e - c|) :
    findMinorityReport (e :: rest) c = some (reportOf e c) := by
  unfold findMinorityReport
  rw [if_pos h]
  rfl

lemma findMinorityReport_cons_neg (e : ModelEvaluation) (rest : List ModelEvaluation)
    (c : ℚ) (h : ¬ 3 ≤ |evalAvgScore e - c|) :
    findMinorityReport (e :: rest) c = findMinorityReport rest c := by
  conv_lhs => rw [findMinorityReport]
  exact if_neg h

lemma findMinorityReport_append_first (pre post : List ModelEvaluation)
    (e : ModelEvaluation) (c : ℚ)
    (hpre : ∀ e2 ∈ pre, ¬ 3 ≤ |evalAvgScore e2 - c|)
    (he : 3 ≤ |evalAvgScore e - c|) :
    findMinorityReport (pre ++ e :: post) c = some (reportOf e c) := by
  induction pre with
  | nil => exact findMinorityReport_cons_pos e post c he
  | cons p t ih =>
    rw [List.cons_append,
      findMinorityReport_cons_neg p (t ++ e :: post) c (hpre p (List.mem_cons_self p t))]
    exact ih (fun e2 h2 => hpre e2 (List.mem_cons_of_mem p h2))

lemma findMinorityReport_isSome_iff (evals : List ModelEvaluation) (c : ℚ) :
    (findMinorityReport evals c).isSome ↔ ∃ e ∈ evals, 3 ≤ |evalAvgScore e - c| := by
  induction evals with
  | nil => simp [findMinorityReport]
  | cons e rest ih =>
    by_cases h : 3 ≤ |evalAvgScore e - c|
    · rw [findMinorityReport_cons_pos e rest c h]
      simp only [Option.isSome_some, true_iff]
      exact ⟨e, List.mem_cons_self e rest, h⟩
    · rw [findMinorityReport_cons_neg e rest c h, ih]
      constructor
      · rintro ⟨e2, h2, h3⟩; exact ⟨e2, List.mem_cons_of_mem e h2, h3⟩
      · rintro ⟨e2, h2, h3⟩
        rcases List.mem_cons.1 h2 with h4 | h4
        · subst h4; exact absurd h3 h
        · exact ⟨e2, h4, h3⟩

lemma debateFor_eq_some_iff (dim : String) (evals : List ModelEvaluation) (d : DebateEntry) :
    debateFor dim evals = some d ↔
      ∃ s rest, debateScores dim evals = s :: rest ∧
        3 ≤ rest.foldl max s - rest.foldl min s ∧
        d = ⟨dim, rest.foldl min s, rest.foldl max s,
          (((s :: rest).map (fun z => (z : ℚ))).sum) / (((s :: rest).length : ℚ))⟩ := by
  unfold debateFor
  rcases hs : debateScores dim evals with _ | ⟨s, rest⟩
  · simp
  · simp only []
    constructor
    · intro h
      by_cases hsp : 3 ≤ rest.foldl max s - rest.foldl min s
      · rw [if_pos hsp] at h
        exact ⟨s, rest, rfl, hsp, (Option.some.inj h).symm⟩
      · rw [if_neg hsp] at h
        exact absurd h (by simp)
    · rintro ⟨s2, rest2, heq, hsp, hd⟩
      obtain ⟨hs2, hr2⟩ := List.cons.inj heq
      subst hs2; subst hr2
      rw [if_pos hsp, hd]

end Crucible

namespace Crucible

/-- A dimension verdict with only its score populated, for boundary checks of
the decision policy. -/
def mkDim (n : ℤ) : DimensionScore :=
  { dimension := "D", score := n, reasoning := "", failure_modes := [],
    perspective := "", model_evaluations := [] }

/-- An evaluator output scoring every dimension 7 at confidence 1 (the shape a
successful API evaluator returns after `_validate_scores`). -/
def stubEval : ModelEvaluation :=
  { model_name := "claude_opus"
    role := "deep_reasoning_critic"
    scores := crucibleDimensions.map (fun d => (d, 7))
    failure_modes := []
    pivots_suggested := []
    confidence := 1
    dissenting_opinion := none
    reasoning := "" }

/-- A registry in which only `claude_opus` answers and every other evaluator
raises. -/
def stubEvalOf (n : String) : Except String ModelEvaluation :=
  if n = "claude_opus" then .ok stubEval else .error "RemoteError"

/-- An evaluator output whose reported confidence is 0, so its registry
weight × confidence is 0. -/
def zeroConfEval : ModelEvaluation :=
  { model_name := "claude_opus"
    role := "deep_reasoning_critic"
    scores := [("Market Viability", 7)]
    failure_modes := []
    pivots_suggested := []
    confidence := 0
    dissenting_opinion := none
    reasoning := "" }

/-- C1 (counterexample).  The claim as stated is false on the code: a run in
which no evaluator produces an output does not yield a score-0 KILL verdict —
the synthesis raises `ZeroDivisionError` at `orchestrator.py:270` (here:
selecting only an unregistered name, so that zero evaluators run, makes the
whole mock-registry engine return the division-by-zero error instead of a
`RunVerdict`). -/
theorem zero_evaluator_counterexample_c1 :
    runMockCrucible dedupFirst "A startup" (some ["nonexistent_model"]) =
      .error .zeroDivision := rfl

/-- C1 (amended).  What actually holds: (a) an empty evaluator subset is falsy
in `selected_models or list(self.evaluators.keys())`, so it selects the full
registry rather than zero evaluators; (b) a run whose collected evaluator
output list is empty makes `_synthesize_verdict` raise `ZeroDivisionError`
rather than return any verdict. -/
theorem zero_evaluator_amended_c1 :
    (∀ (setList : List String → List String) (w : String → ℚ) (keys : List String)
        (evalOf : String → Except String ModelEvaluation) (concept : String),
      runAdversarialEvaluation setList w keys evalOf concept (some []) =
        runAdversarialEvaluation setList w keys evalOf concept none) ∧
    (∀ (setList : List String → List String) (w : String → ℚ) (concept : String)
        (debates : List DebateEntry),
      synthesizeVerdict setList w concept [] debates = .error .zeroDivision) :=
  ⟨fun _ _ _ _ _ => rfl, fun _ _ _ _ => rfl⟩

/-- C2.  The decision policy of `_make_decision` (identical in
`orchestrator.py:345`–`363` and `crucible.py:460`–`486`) is, on every
nonempty dimension list, exactly the spec's first-match-wins table over
(overall score, minimum dimension score, critically-low count):
(1) it equals `decisionTableSpec` at the minimum score and the count,
(2) `minScoreOf` really is the minimum of the dimension scores,
(3) the decision depends on nothing but the triple, and
(4)–(10) the table rows at their boundary values, including
overall=8,min=6 → STRONG_PROCEED; overall=7.99,min=6 → PROCEED; and
overall=5,min=1,criticallyLow=2 → KILL. -/
theorem decision_policy_c2 :
    (∀ (overall : ℚ) (ds : List DimensionScore), ds ≠ [] →
      ∃ mn, minScoreOf ds = some mn ∧
        makeDecision overall ds = .ok (decisionTableSpec overall mn (criticallyLowCount ds))) ∧
    (∀ (ds : List DimensionScore) (mn : ℤ), minScoreOf ds = some mn →
      (∃ d ∈ ds, d.score = mn) ∧ ∀ d ∈ ds, mn ≤ d.score) ∧
    (∀ (overall : ℚ) (ds1 ds2 : List DimensionScore), ds1 ≠ [] → ds2 ≠ [] →
      minScoreOf ds1 = minScoreOf ds2 → criticallyLowCount ds1 = criticallyLowCount ds2 →
      makeDecision overall ds1 = makeDecision overall ds2) ∧
    makeDecision 8 [mkDim 6] = .ok .STRONG_PROCEED ∧
    makeDecision (799 / 100) [mkDim 6] = .ok .PROCEED ∧
    makeDecision 7 [mkDim 4] = .ok .PROCEED ∧
    makeDecision 6 [mkDim 3] = .ok .PROCEED_WITH_CAUTION ∧
    makeDecision 5 [mkDim 4, mkDim 2] = .ok .PROCEED_WITH_CAUTION ∧
    makeDecision 5 [mkDim 9, mkDim 1, mkDim 2] = .ok .KILL ∧
    makeDecision (499 / 100) [mkDim 10] = .ok .KILL := by
  refine ⟨?_, ?_, ?_, ?_, ?_, ?_, ?_, ?_, ?_, ?_⟩
  · intro overall ds hds
    cases ds with
    | nil => exact absurd rfl hds
    | cons d rest =>
      exact ⟨(rest.map (fun x : DimensionScore => x.score)).foldl min d.score, rfl, rfl⟩
  · intro ds mn h
    cases ds with
    | nil => exact absurd h (by simp [minScoreOf])
    | cons d rest =>
      have hmn : mn = (rest.map (fun x => x.score)).foldl min d.score :=
        (Option.some.inj h).symm
      subst hmn
      constructor
      · rcases foldl_min_eq_start_or_mem (rest.map (fun x => x.score)) d.score with h1 | h1
        · exact ⟨d, List.mem_cons_self d rest, h1.symm⟩
        · obtain ⟨d2, hd2, hsc⟩ := List.mem_map.1 h1
          exact ⟨d2, List.mem_cons_of_mem d hd2, hsc⟩
      · intro d2 hd2
        rcases List.mem_cons.1 hd2 with h1 | h1
        · subst h1; exact foldl_min_le_start _ _
        · exact foldl_min_le_mem _ _ _ (List.mem_map.2 ⟨d2, h1, rfl⟩)
  · intro overall ds1 ds2 h1 h2 hmin hcnt
    cases ds1 with
    | nil => exact absurd rfl h1
    | cons d1 r1 =>
      cases ds2 with
      | nil => exact absurd rfl h2
      | cons d2 r2 =>
        have hm : (r1.map (fun x => x.score)).foldl min d1.score =
            (r2.map (fun x => x.score)).foldl min d2.score :=
          Option.some.inj hmin
        rw [makeDecision_cons, makeDecision_cons, hm, hcnt]
  · norm_num [makeDecision_cons, decisionTableSpec, criticallyLowCount, mkDim]
  · norm_num [makeDecision_cons, decisionTableSpec, criticallyLowCount, mkDim]
  · norm_num [makeDecision_cons, decisionTableSpec, criticallyLowCount, mkDim]
  · norm_num [makeDecision_cons, decisionTableSpec, criticallyLowCount, mkDim]
  · norm_num [makeDecision_cons, decisionTableSpec, criticallyLowCount, mkDim]
  · norm_num [makeDecision_cons, decisionTableSpec, criticallyLowCount, mkDim]
  · norm_num [makeDecision_cons, decisionTableSpec, criticallyLowCount, mkDim]

/-- C2 (witness): the first conjunct applied at overall=8 with one dimension
scoring 6 gives STRONG_PROCEED through the spec table. -/
theorem decision_policy_c2_witness :
    ([mkDim 6] : List DimensionScore) ≠ [] ∧
    makeDecision 8 [mkDim 6] = .ok (decisionTableSpec 8 6 (criticallyLowCount [mkDim 6])) := by
  refine ⟨by simp, ?_⟩
  obtain ⟨mn, hmn, hmd⟩ := decision_policy_c2.1 8 [mkDim 6] (by simp)
  have hmn6 : mn = 6 := by
    have h6 : minScoreOf [mkDim 6] = some 6 := rfl
    rw [h6] at hmn
    exact (Option.some.inj hmn).symm
  rw [hmn6] at hmd
  exact hmd

/-- C4.  The claim ("a dimension whose weights sum to zero is skipped, never a
division error") names intended behavior the code does not implement: with a
single contributor of confidence 0 the weighted denominator is 0 and the
division at `orchestrator.py:254` raises `ZeroDivisionError`, which aborts the
whole synthesis — the dimension is not skipped. -/
theorem zero_weight_division_c4 :
    dimConsensus dedupFirst registryWeight "Market Viability" [zeroConfEval] =
      .error .zeroDivision ∧
    synthesizeVerdict dedupFirst registryWeight "A startup" [zeroConfEval] [] =
      .error .zeroDivision := by
  have h1 : dimConsensus dedupFirst registryWeight "Market Viability" [zeroConfEval] =
      .error .zeroDivision := by
    apply dimConsensus_zero_denom
    · simp [contributorsFor, zeroConfEval, List.lookup]
    · simp [weightDenom, contributorsFor, zeroConfEval, List.lookup]
  have hc : collectDims dedupFirst registryWeight [zeroConfEval] crucibleDimensions =
      .error .zeroDivision := by
    rw [show crucibleDimensions = "Market Viability" ::
      ["Technical Feasibility", "Unit Economics", "Competitive Moats", "Scaling Bottlenecks"]
      from rfl]
    simp only [collectDims, h1]
  refine ⟨h1, ?_⟩
  unfold synthesizeVerdict
  rw [hc]

end Crucible

namespace Crucible

/-- Projection: the consensus score of a per-dimension synthesis result. -/
def dimScoreOf : Except PyErr (Option DimensionScore) → Option ℤ
  | .ok (some d) => some d.score
  | _ => none

/-- An evaluator output scoring Market Viability 4 at confidence 1. -/
def evalFour : ModelEvaluation :=
  { model_name := "claude_opus", role := "deep_reasoning_critic",
    scores := [("Market Viability", 4)], failure_modes := [], pivots_suggested := [],
    confidence := 1, dissenting_opinion := none, reasoning := "" }

/-- An evaluator output scoring Market Viability 8 at confidence 1; same
registry weight as `evalFour`, so the two carry equal weight×confidence. -/
def evalEight : ModelEvaluation :=
  { model_name := "claude_opus", role := "deep_reasoning_critic",
    scores := [("Market Viability", 8)], failure_modes := [], pivots_suggested := [],
    confidence := 1, dissenting_opinion := none, reasoning := "" }

/-- C5.  For every dimension with at least one contributor and nonzero
weighted denominator (scores in [1,10], nonnegative weights), the emitted
consensus score is the weight×confidence-weighted mean of the contributing
scores rounded to the nearest integer (round half to even, within 1/2 of the
mean), it lies in [1,10], and clamping to [1,10] is the identity on it. -/
theorem consensus_weighted_mean_c5 :
    ∀ (setList : List String → List String) (w : String → ℚ) (dim : String)
      (evals : List ModelEvaluation),
      contributorsFor dim evals ≠ [] →
      (∀ p ∈ contributorsFor dim evals,
        1 ≤ p.2 ∧ p.2 ≤ 10 ∧ 0 ≤ w p.1.model_name * p.1.confidence) →
      weightDenom w dim evals ≠ 0 →
      ∃ d, dimConsensus setList w dim evals = .ok (some d) ∧
        d.score = pyRound (weightedMeanFor w dim evals) ∧
        pyClamp 1 10 d.score = d.score ∧
        1 ≤ d.score ∧ d.score ≤ 10 ∧
        |weightedMeanFor w dim evals - (d.score : ℚ)| ≤ 1 / 2 := by
  intro setList w dim evals hne hb hdz
  obtain ⟨p0, ps, hc⟩ := List.exists_cons_of_ne_nil hne
  have hwnn : 0 ≤ weightDenom w dim evals := by
    apply List.sum_nonneg
    intro x hx
    obtain ⟨p, hp, hpx⟩ := List.mem_map.1 hx
    rw [← hpx]
    exact (hb p hp).2.2
  have hwpos : 0 < weightDenom w dim evals := lt_of_le_of_ne hwnn (Ne.symm hdz)
  have hsb := weighted_sum_bounds (contributorsFor dim evals) w 1 10
    (fun p hp => ⟨by exact_mod_cast (hb p hp).1, by exact_mod_cast (hb p hp).2.1,
      (hb p hp).2.2⟩)
  have hml : (1 : ℚ) ≤ weightedMeanFor w dim evals := by
    unfold weightedMeanFor
    rw [le_div_iff₀ hwpos]
    have := hsb.1
    unfold weightDenom at hwpos ⊢
    linarith
  have hmu : weightedMeanFor w dim evals ≤ 10 := by
    unfold weightedMeanFor
    rw [div_le_iff₀ hwpos]
    have := hsb.2
    unfold weightDenom at hwpos ⊢
    linarith
  have hrb := pyRound_bounds 1 10 (weightedMeanFor w dim evals)
    (by exact_mod_cast hml) (by exact_mod_cast hmu)
  refine ⟨_, dimConsensus_of_contribs setList w dim evals p0 ps hc hdz, rfl,
    pyClamp_eq_self _ hrb.1 hrb.2, hrb.1, hrb.2, pyRound_nearest _⟩

/-- C5 (witness): two contributors of equal weight×confidence with scores 4
and 8 yield consensus score round((4·w+8·w)/(2w)) = round(6) = 6. -/
theorem consensus_weighted_mean_c5_witness :
    contributorsFor "Market Viability" [evalFour, evalEight] ≠ [] ∧
    weightDenom registryWeight "Market Viability" [evalFour, evalEight] ≠ 0 ∧
    weightedMeanFor registryWeight "Market Viability" [evalFour, evalEight] = 6 ∧
    dimScoreOf (dimConsensus dedupFirst registryWeight "Market Viability"
      [evalFour, evalEight]) = some 6 := by
  have hcc : contributorsFor "Market Viability" [evalFour, evalEight] =
      [(evalFour, 4), (evalEight, 8)] := by
    simp [contributorsFor, evalFour, evalEight, List.lookup]
  have hne : contributorsFor "Market Viability" [evalFour, evalEight] ≠ [] := by
    rw [hcc]; simp
  have hdz : weightDenom registryWeight "Market Viability" [evalFour, evalEight] ≠ 0 := by
    unfold weightDenom
    rw [hcc]
    norm_num [registryWeight, evaluatorModels, List.lookup, evalFour, evalEight]
  have hb : ∀ p ∈ contributorsFor "Market Viability" [evalFour, evalEight],
      1 ≤ p.2 ∧ p.2 ≤ 10 ∧ 0 ≤ registryWeight p.1.model_name * p.1.confidence := by
    rw [hcc]
    intro p hp
    rcases List.mem_cons.1 hp with h | h
    · subst h
      refine ⟨by norm_num, by norm_num, ?_⟩
      norm_num [registryWeight, evaluatorModels, List.lookup, evalFour]
    · rcases List.mem_cons.1 h with h2 | h2
      · subst h2
        refine ⟨by norm_num, by norm_num, ?_⟩
        norm_num [registryWeight, evaluatorModels, List.lookup, evalEight]
      · simp at h2
  have hm : weightedMeanFor registryWeight "Market Viability" [evalFour, evalEight] = 6 := by
    unfold weightedMeanFor weightDenom
    rw [hcc]
    norm_num [registryWeight, evaluatorModels, List.lookup, evalFour, evalEight]
  obtain ⟨d, hd, hsc, _, _, _, _⟩ :=
    consensus_weighted_mean_c5 dedupFirst registryWeight "Market Viability"
      [evalFour, evalEight] hne hb hdz
  refine ⟨hne, hdz, hm, ?_⟩
  rw [hd]
  have h6 : pyRound (6 : ℚ) = 6 := by norm_num [pyRound]
  simp [dimScoreOf, hsc, hm, h6]

end Crucible

namespace Crucible

/-- Projection: the failure-mode list of a per-dimension synthesis result. -/
def dimFailureModes : Except PyErr (Option DimensionScore) → Option (List String)
  | .ok (some d) => some d.failure_modes
  | _ => none

/-- One possible enumeration of a CPython hash set: some permutation of the
distinct elements.  This particular one returns them in reverse order of
first occurrence — as legitimate an iteration order of `set(...)` as any,
since string hashing is randomized per process. -/
def revSetList (xs : List String) : List String := (dedupFirst xs).reverse

/-- An evaluator output contributing four distinct failure modes to one
dimension. -/
def fmEval : ModelEvaluation :=
  { model_name := "claude_opus", role := "deep_reasoning_critic",
    scores := [("Market Viability", 7)],
    failure_modes := ["fm1", "fm2", "fm3", "fm4"], pivots_suggested := [],
    confidence := 1, dissenting_opinion := none, reasoning := "" }

lemma fmEval_contribs : contributorsFor "Market Viability" [fmEval] = [(fmEval, 7)] := by
  simp [contributorsFor, fmEval, List.lookup]

lemma fmEval_denom : weightDenom registryWeight "Market Viability" [fmEval] ≠ 0 := by
  unfold weightDenom
  rw [fmEval_contribs]
  norm_num [registryWeight, evaluatorModels, List.lookup, fmEval]

/-- C6 (counterexample).  The claim asserts the failure-mode list is the
first-occurrence deduplication of the union truncated to 3, deterministically.
But the code computes `list(set(all_failure_modes))[:3]`
(`orchestrator.py:264`), whose order is the hash-set iteration order: under
the equally legitimate enumeration `revSetList` (a permutation of the
distinct elements) the emitted list is `["fm4","fm3","fm2"]`, not the
first-occurrence truncation `["fm1","fm2","fm3"]`. -/
theorem failure_mode_counterexample_c6 :
    (revSetList ["fm1", "fm2", "fm3", "fm4"]).Perm (dedupFirst ["fm1", "fm2", "fm3", "fm4"]) ∧
    dimFailureModes (dimConsensus revSetList registryWeight "Market Viability" [fmEval]) =
      some ["fm4", "fm3", "fm2"] ∧
    ["fm4", "fm3", "fm2"] ≠ (dedupFirst ["fm1", "fm2", "fm3", "fm4"]).take 3 := by
  refine ⟨List.reverse_perm _, ?_, by decide⟩
  rw [dimConsensus_of_contribs revSetList registryWeight "Market Viability" [fmEval]
    (fmEval, 7) [] fmEval_contribs fmEval_denom]
  simp only [dimFailureModes, fmEval_contribs]
  decide

/-- C6 (amended).  What does hold, for every legitimate hash-set enumeration
(any function returning a permutation of the distinct elements): each emitted
dimension verdict's failure-mode list has at most 3 entries, no duplicates,
and every entry is a failure mode of some contributing evaluator — but the
choice and order of the 3 survivors is the enumeration's, not necessarily
first occurrence. -/
theorem failure_mode_amended_c6 :
    ∀ (setList : List String → List String),
      (∀ xs, (setList xs).Perm (dedupFirst xs)) →
      ∀ (w : String → ℚ) (dim : String) (evals : List ModelEvaluation) (d : DimensionScore),
        dimConsensus setList w dim evals = .ok (some d) →
        d.failure_modes.length ≤ 3 ∧ d.failure_modes.Nodup ∧
        ∀ fm ∈ d.failure_modes, ∃ p ∈ contributorsFor dim evals, fm ∈ p.1.failure_modes := by
  intro setList hperm w dim evals d h
  obtain ⟨_, hfm, _, _⟩ := dimConsensus_ok_some_fields setList w dim evals d h
  rw [hfm]
  refine ⟨le_trans (le_of_eq (List.length_take 3 _)) (min_le_left 3 _), ?_, ?_⟩
  · exact List.Nodup.sublist (List.take_sublist 3 _)
      ((hperm _).nodup_iff.2 (nodup_dedupFirst _))
  · intro fm hmem
    have h1 : fm ∈ setList (((contributorsFor dim evals).map
        (fun p => p.1.failure_modes)).flatten) := List.mem_of_mem_take hmem
    have h2 : fm ∈ ((contributorsFor dim evals).map (fun p => p.1.failure_modes)).flatten := by
      rw [← mem_dedupFirst]
      exact ((hperm _).mem_iff).1 h1
    obtain ⟨l, hl, hfml⟩ := List.mem_flatten.1 h2
    obtain ⟨p, hp, hpl⟩ := List.mem_map.1 hl
    exact ⟨p, hp, by rw [hpl]; exact hfml⟩

/-- C6 (amended, witness): the first-occurrence enumeration is itself a
legitimate hash-set enumeration; on `fmEval` it emits `["fm1","fm2","fm3"]`,
which is within the bound and duplicate-free. -/
theorem failure_mode_amended_c6_witness :
    dimFailureModes (dimConsensus dedupFirst registryWeight "Market Viability" [fmEval]) =
      some ["fm1", "fm2", "fm3"] ∧
    (["fm1", "fm2", "fm3"] : List String).length ≤ 3 ∧
    (["fm1", "fm2", "fm3"] : List String).Nodup := by
  have h := dimConsensus_of_contribs dedupFirst registryWeight "Market Viability" [fmEval]
    (fmEval, 7) [] fmEval_contribs fmEval_denom
  have hres := failure_mode_amended_c6 dedupFirst (fun xs => List.Perm.refl _)
    registryWeight "Market Viability" [fmEval] _ h
  have hlist : (dedupFirst (((contributorsFor "Market Viability" [fmEval]).map
      (fun p => p.1.failure_modes)).flatten)).take 3 = ["fm1", "fm2", "fm3"] := by
    rw [fmEval_contribs]
    decide
  refine ⟨?_, ?_, ?_⟩
  · rw [h]
    simp only [dimFailureModes]
    rw [hlist]
  · have := hres.1
    rw [hlist] at this
    exact this
  · have := hres.2.1
    rw [hlist] at this
    exact this

end Crucible

namespace Crucible

/-- An evaluator output whose own mean score is 9, with a dissenting
opinion. -/
def nineEval : ModelEvaluation :=
  { model_name := "grok", role := "contrarian",
    scores := [("Market Viability", 9)], failure_modes := [], pivots_suggested := [],
    confidence := 1, dissenting_opinion := some "The consensus underrates this concept.",
    reasoning := "" }

/-- An evaluator output that reported no dimension scores at all. -/
def noScoresEval : ModelEvaluation :=
  { model_name := "kimi", role := "apac_expansion",
    scores := [], failure_modes := [], pivots_suggested := [],
    confidence := 1, dissenting_opinion := none, reasoning := "" }

/-- C8.  `_find_minority_report` produces a report iff some evaluator's own
mean score (0 for an empty mapping) deviates from the consensus by ≥ 3; when
several qualify the first in original evaluator order is reported, carrying
its name, role, mean score, the consensus score, and its dissenting opinion
when present and nonempty, else the fixed placeholder; the `Option` return
carries at most one report per run. -/
theorem minority_report_c8 :
    (∀ (evals : List ModelEvaluation) (c : ℚ),
      (findMinorityReport evals c).isSome ↔ ∃ e ∈ evals, 3 ≤ |evalAvgScore e - c|) ∧
    (∀ (pre post : List ModelEvaluation) (e : ModelEvaluation) (c : ℚ),
      (∀ e2 ∈ pre, ¬ 3 ≤ |evalAvgScore e2 - c|) → 3 ≤ |evalAvgScore e - c| →
      findMinorityReport (pre ++ e :: post) c = some (reportOf e c)) ∧
    (∀ (e : ModelEvaluation) (c : ℚ), reportOf e c =
      ⟨e.model_name, e.role, evalAvgScore e, c, minorityText e⟩) ∧
    (∀ e : ModelEvaluation, e.dissenting_opinion = none →
      minorityText e = "See detailed evaluation for reasoning.") ∧
    (∀ (e : ModelEvaluation) (s : String), e.dissenting_opinion = some s → s ≠ "" →
      minorityText e = s) := by
  refine ⟨findMinorityReport_isSome_iff, findMinorityReport_append_first,
    fun e c => rfl, ?_, ?_⟩
  · intro e h
    unfold minorityText
    rw [h]
  · intro e s h hs
    unfold minorityText
    rw [h]
    exact if_neg hs

/-- C8 (witness): one evaluator at score-mean 9 against a consensus of 3
(deviation 6) produces a minority report naming that evaluator. -/
theorem minority_report_c8_witness :
    (3 : ℚ) ≤ |evalAvgScore nineEval - 3| ∧
    findMinorityReport [nineEval] 3 = some (reportOf nineEval 3) ∧
    (reportOf nineEval 3).model_name = "grok" ∧
    (reportOf nineEval 3).model_score = 9 ∧
    (reportOf nineEval 3).opinion = "The consensus underrates this concept." := by
  have havg : evalAvgScore nineEval = 9 := by
    norm_num [evalAvgScore, nineEval]
  have hdev : (3 : ℚ) ≤ |evalAvgScore nineEval - 3| := by
    rw [havg]
    norm_num
  refine ⟨hdev, minority_report_c8.2.1 [] [] nineEval 3 (by simp) hdev, rfl, havg, rfl⟩

/-- C10.  In the minority-report check an evaluator with an empty scores
mapping is assigned mean 0 (`orchestrator.py:456`); hence whenever the
consensus is ≥ 3, an empty-scores evaluator placed before every other
qualifying evaluator deviates by |0 − c| ≥ 3 and is itself named in the
minority report despite having reported no dimension scores. -/
theorem empty_scores_minority_c10 :
    (∀ e : ModelEvaluation, e.scores = [] → evalAvgScore e = 0) ∧
    (∀ (pre post : List ModelEvaluation) (e : ModelEvaluation) (c : ℚ),
      3 ≤ c → e.scores = [] →
      (∀ e2 ∈ pre, ¬ 3 ≤ |evalAvgScore e2 - c|) →
      findMinorityReport (pre ++ e :: post) c =
        some ⟨e.model_name, e.role, 0, c, minorityText e⟩) := by
  have hzero : ∀ e : ModelEvaluation, e.scores = [] → evalAvgScore e = 0 := by
    intro e h
    unfold evalAvgScore
    rw [if_pos (by simp [h])]
  refine ⟨hzero, ?_⟩
  intro pre post e c hc hes hpre
  have hdev : 3 ≤ |evalAvgScore e - c| := by
    rw [hzero e hes]
    rw [abs_of_nonpos (by linarith)]
    linarith
  rw [findMinorityReport_append_first pre post e c hpre hdev]
  unfold reportOf
  rw [hzero e hes]

/-- C10 (witness): with consensus 5, the empty-scores evaluator heading the
list is reported with mean 0, ahead of a genuinely dissenting evaluator. -/
theorem empty_scores_minority_c10_witness :
    (3 : ℚ) ≤ 5 ∧ noScoresEval.scores = [] ∧
    findMinorityReport [noScoresEval, nineEval] 5 =
      some ⟨"kimi", "apac_expansion", 0, 5, "See detailed evaluation for reasoning."⟩ := by
  refine ⟨by norm_num, rfl, ?_⟩
  have h := empty_scores_minority_c10.2 [] [nineEval] noScoresEval 5 (by norm_num) rfl
    (by simp)
  exact h

end Crucible

namespace Crucible

/-- C9.  The rule-based fallback (`MockEvaluator.evaluate`) is total: for
every proposal and dimension list it returns a populated output whose score
for each requested dimension is the baseline-5 keyword-adjusted value clamped
to [1,10], with fixed confidence 3/10 ≤ 0.3; the advertised deltas hold:
"revenue"/"customers"/"validated" in the lower-cased text raise Market
Viability to 7 (absent the other Market keywords), "ai"/"blockchain"/
"quantum" lower Technical Feasibility to 3 (absent the raising keywords), and
a keyword-free proposal scores baseline 5 on every dimension. -/
theorem mock_fallback_c9 :
    (∀ (name role concept : String) (dims : List String),
      (mockEvaluate name role concept dims).scores =
        dims.map (fun d => (d, pyClamp 1 10 (mockDimScore d (pyLower concept)))) ∧
      (∀ p ∈ (mockEvaluate name role concept dims).scores, 1 ≤ p.2 ∧ p.2 ≤ 10) ∧
      (mockEvaluate name role concept dims).confidence = 3 / 10 ∧
      (mockEvaluate name role concept dims).failure_modes ≠ [] ∧
      (mockEvaluate name role concept dims).pivots_suggested ≠ []) ∧
    (∀ t : String, anyIn ["revenue", "customers", "validated"] t = true →
      anyIn ["enterprise", "global", "platform"] t = false →
      pyIn "niche" t = false → pyIn "small" t = false →
      mockDimScore "Market Viability" t = 7) ∧
    (∀ t : String, anyIn ["proven", "existing", "simple"] t = false →
      anyIn ["ai", "blockchain", "quantum"] t = true →
      mockDimScore "Technical Feasibility" t = 3) ∧
    (∀ d ∈ crucibleDimensions, mockDimScore d (pyLower "zzz") = 5) := by
  refine ⟨?_, ?_, ?_, by decide⟩
  · intro name role concept dims
    refine ⟨rfl, ?_, rfl, by simp [mockEvaluate], by simp [mockEvaluate]⟩
    intro p hp
    obtain ⟨d, _, rfl⟩ := List.mem_map.1 hp
    exact pyClamp_mem 1 10 _ (by norm_num)
  · intro t h1 h2 h3 h4
    unfold mockDimScore
    rw [if_pos (by decide), if_pos h1, if_neg (by simp [h2]),
      if_neg (by simp [h3, h4])]
    norm_num
  · intro t h1 h2
    unfold mockDimScore
    rw [if_neg (by decide), if_pos (by decide), if_neg (by simp [h1]), if_pos h2]
    norm_num

/-- C9 (witness): the Market Viability delta at a proposal containing
"revenue", and the Technical Feasibility delta at one containing "quantum". -/
theorem mock_fallback_c9_witness :
    anyIn ["revenue", "customers", "validated"] (pyLower "Recurring revenue") = true ∧
    mockDimScore "Market Viability" (pyLower "Recurring revenue") = 7 ∧
    anyIn ["ai", "blockchain", "quantum"] (pyLower "Quantum gadget") = true ∧
    mockDimScore "Technical Feasibility" (pyLower "Quantum gadget") = 3 ∧
    (mockEvaluate "claude_opus" "deep_reasoning_critic" "Recurring revenue"
      crucibleDimensions).scores =
      crucibleDimensions.map
        (fun d => (d, pyClamp 1 10 (mockDimScore d (pyLower "Recurring revenue")))) :=
  ⟨by decide,
   mock_fallback_c9.2.1 (pyLower "Recurring revenue") (by decide) (by decide)
     (by decide) (by decide),
   by decide,
   mock_fallback_c9.2.2.1 (pyLower "Quantum gadget") (by decide) (by decide),
   (mock_fallback_c9.1 "claude_opus" "deep_reasoning_critic" "Recurring revenue"
     crucibleDimensions).1⟩

end Crucible

namespace Crucible

/-- Evaluator scoring Market Viability 5 (first of the 5-5-8 trio). -/
def ev558a : ModelEvaluation :=
  { model_name := "claude_opus", role := "deep_reasoning_critic",
    scores := [("Market Viability", 5)], failure_modes := [], pivots_suggested := [],
    confidence := 1, dissenting_opinion := none, reasoning := "" }

/-- Evaluator scoring Market Viability 5 (second of the 5-5-8 trio). -/
def ev558b : ModelEvaluation :=
  { model_name := "gpt_o3", role := "vc_skeptic",
    scores := [("Market Viability", 5)], failure_modes := [], pivots_suggested := [],
    confidence := 1, dissenting_opinion := none, reasoning := "" }

/-- Evaluator scoring Market Viability 8 (third of the 5-5-8 trio). -/
def ev558c : ModelEvaluation :=
  { model_name := "gemini_flash", role := "speed_analyst",
    scores := [("Market Viability", 8)], failure_modes := [], pivots_suggested := [],
    confidence := 1, dissenting_opinion := none, reasoning := "" }

/-- Three evaluators scoring one dimension 5, 5, 8: spread 3. -/
def evals558 : List ModelEvaluation := [ev558a, ev558b, ev558c]

/-- Three evaluators scoring one dimension 5, 6, 7: spread 2. -/
def evals567 : List ModelEvaluation :=
  [{ ev558a with scores := [("Market Viability", 5)] },
   { ev558b with scores := [("Market Viability", 6)] },
   { ev558c with scores := [("Market Viability", 7)] }]

/-- C7.  `_run_debate_rounds` emits an entry for a dimension iff the scores
contributed to it have max − min ≥ 3; every entry carries the dimension name,
the true minimum, the true maximum and the arithmetic mean of the contributed
scores, and spread ≥ 3 forces at least 2 contributed scores; debate detection
never alters the dimension scores or the consensus score of the synthesis;
scores {5,5,8} produce a Market Viability entry (min 5, max 8, mean 6) while
{5,6,7} produce none. -/
theorem debate_detection_c7 :
    (∀ (evals : List ModelEvaluation) (dim : String),
      (∃ d ∈ runDebateRounds evals, d.dimension = dim) ↔
      (dim ∈ crucibleDimensions ∧ ∃ s rest, debateScores dim evals = s :: rest ∧
        3 ≤ rest.foldl max s - rest.foldl min s)) ∧
    (∀ (evals : List ModelEvaluation) (d : DebateEntry), d ∈ runDebateRounds evals →
      2 ≤ (debateScores d.dimension evals).length ∧
      ∃ s rest, debateScores d.dimension evals = s :: rest ∧
        d.min_score = rest.foldl min s ∧ d.max_score = rest.foldl max s ∧
        d.avg_score = (((s :: rest).map (fun z => (z : ℚ))).sum) / (((s :: rest).length : ℚ)) ∧
        (∀ x ∈ s :: rest, d.min_score ≤ x ∧ x ≤ d.max_score)) ∧
    (∀ (setList : List String → List String) (w : String → ℚ) (concept : String)
        (evals : List ModelEvaluation) (d1 d2 : List DebateEntry),
      (synthesizeVerdict setList w concept evals d1).map (fun v => v.dimension_scores) =
        (synthesizeVerdict setList w concept evals d2).map (fun v => v.dimension_scores) ∧
      (synthesizeVerdict setList w concept evals d1).map (fun v => v.consensus_score) =
        (synthesizeVerdict setList w concept evals d2).map (fun v => v.consensus_score)) ∧
    (runDebateRounds evals558).map (fun d => d.dimension) = ["Market Viability"] ∧
    debateFor "Market Viability" evals558 = some ⟨"Market Viability", 5, 8, 6⟩ ∧
    runDebateRounds evals567 = [] := by
  have hsc558 : debateScores "Market Viability" evals558 = [5, 5, 8] := by
    simp [debateScores, evals558, ev558a, ev558b, ev558c, List.lookup]
  refine ⟨?_, ?_, synthesizeVerdict_debates_only, rfl, ?_, rfl⟩
  · intro evals dim
    constructor
    · rintro ⟨d, hd, rfl⟩
      obtain ⟨a, ha, hfa⟩ := List.mem_filterMap.1 hd
      obtain ⟨s, rest, hsc, hsp, hde⟩ := (debateFor_eq_some_iff a evals d).1 hfa
      subst hde
      exact ⟨ha, s, rest, hsc, hsp⟩
    · rintro ⟨hdim, s, rest, hsc, hsp⟩
      refine ⟨⟨dim, rest.foldl min s, rest.foldl max s,
        (((s :: rest).map (fun z => (z : ℚ))).sum) / (((s :: rest).length : ℚ))⟩,
        List.mem_filterMap.2 ⟨dim, hdim, ?_⟩, rfl⟩
      exact (debateFor_eq_some_iff dim evals _).2 ⟨s, rest, hsc, hsp, rfl⟩
  · intro evals d hd
    obtain ⟨a, _, hfa⟩ := List.mem_filterMap.1 hd
    obtain ⟨s, rest, hsc, hsp, hde⟩ := (debateFor_eq_some_iff a evals d).1 hfa
    subst hde
    constructor
    · rcases rest with _ | ⟨r, rs⟩
      · simp only [List.foldl_nil] at hsp
        omega
      · rw [hsc]
        simp
    · refine ⟨s, rest, hsc, rfl, rfl, rfl, ?_⟩
      intro x hx
      rcases List.mem_cons.1 hx with h1 | h1
      · subst h1
        exact ⟨foldl_min_le_start rest x, start_le_foldl_max rest x⟩
      · exact ⟨foldl_min_le_mem rest s x h1, mem_le_foldl_max rest s x h1⟩
  · unfold debateFor
    rw [hsc558]
    norm_num [List.foldl]

/-- C7 (witness): the 5-5-8 Market Viability entry is a member of the debate
output, and its dimension indeed collected at least 2 scores. -/
theorem debate_detection_c7_witness :
    (⟨"Market Viability", 5, 8, 6⟩ : DebateEntry) ∈ runDebateRounds evals558 ∧
    2 ≤ (debateScores "Market Viability" evals558).length := by
  have hmem : (⟨"Market Viability", 5, 8, 6⟩ : DebateEntry) ∈ runDebateRounds evals558 := by
    unfold runDebateRounds
    exact List.mem_filterMap.2 ⟨"Market Viability", by simp [crucibleDimensions],
      debate_detection_c7.2.2.2.2.1⟩
  exact ⟨hmem, (debate_detection_c7.2.1 evals558 _ hmem).1⟩

end Crucible

namespace Crucible

/-- Projection: the evaluator outputs a pipeline result was built from
(`none` when the run raised instead of returning a verdict). -/
def runEvalsOf : Except PyErr CrucibleVerdict → Option (List ModelEvaluation)
  | .ok v => some v.model_evaluations
  | .error _ => none

/-- The dimension verdict the synthesizer derives from `stubEval` alone. -/
def stubRec (dim : String) : DimensionScore :=
  { dimension := dim
    score := pyRound (weightedMeanFor registryWeight dim [stubEval])
    reasoning := synthesizeReasoning dim ((contributorsFor dim [stubEval]).map (fun p => p.1))
    failure_modes :=
      (dedupFirst (((contributorsFor dim [stubEval]).map (fun p => p.1.failure_modes)).flatten)).take 3
    perspective := getDimensionPerspective dim ((contributorsFor dim [stubEval]).map (fun p => p.1))
    model_evaluations := (contributorsFor dim [stubEval]).map (fun p => p.1) }

lemma stubEval_contribs : ∀ dim ∈ crucibleDimensions,
    contributorsFor dim [stubEval] = [(stubEval, 7)] := by
  intro dim hdim
  fin_cases hdim <;> simp [contributorsFor, stubEval, crucibleDimensions, List.lookup]

lemma stubEval_denom : ∀ dim ∈ crucibleDimensions,
    weightDenom registryWeight dim [stubEval] ≠ 0 := by
  intro dim hdim
  unfold weightDenom
  rw [stubEval_contribs dim hdim]
  norm_num [registryWeight, evaluatorModels, List.lookup, stubEval]

lemma stubEval_dimConsensus : ∀ dim ∈ crucibleDimensions,
    dimConsensus dedupFirst registryWeight dim [stubEval] = .ok (some (stubRec dim)) := by
  intro dim hdim
  exact dimConsensus_of_contribs dedupFirst registryWeight dim [stubEval] (stubEval, 7) []
    (stubEval_contribs dim hdim) (stubEval_denom dim hdim)

lemma stubEval_collect : collectDims dedupFirst registryWeight [stubEval] crucibleDimensions =
    .ok (crucibleDimensions.map (fun d => some (stubRec d))) := by
  have h1 := stubEval_dimConsensus "Market Viability" (by simp [crucibleDimensions])
  have h2 := stubEval_dimConsensus "Technical Feasibility" (by simp [crucibleDimensions])
  have h3 := stubEval_dimConsensus "Unit Economics" (by simp [crucibleDimensions])
  have h4 := stubEval_dimConsensus "Competitive Moats" (by simp [crucibleDimensions])
  have h5 := stubEval_dimConsensus "Scaling Bottlenecks" (by simp [crucibleDimensions])
  rw [show crucibleDimensions = ["Market Viability", "Technical Feasibility", "Unit Economics",
    "Competitive Moats", "Scaling Bottlenecks"] from rfl]
  simp only [collectDims, h1, h2, h3, h4, h5, List.map]

/-- C3 (counterexample).  The claim says a run request containing an unknown
evaluator name is rejected and the rejection surfaces to the caller.  It is
not: `_run_parallel_evaluation` silently skips names missing from
`self.evaluators` (`orchestrator.py:156`), so requesting
`["claude_opus", "no_such_model"]` returns an ordinary verdict built from
`claude_opus` alone. -/
theorem unknown_name_counterexample_c3 :
    runEvalsOf (runAdversarialEvaluation dedupFirst registryWeight registryKeys stubEvalOf
      "A startup" (some ["claude_opus", "no_such_model"])) = some [stubEval] := by
  obtain ⟨v, hv, _, hevals, _⟩ := synthesizeVerdict_fields dedupFirst registryWeight
    "A startup" [stubEval] (runDebateRounds [stubEval])
    (crucibleDimensions.map (fun d => some (stubRec d)))
    (stubRec "Market Viability")
    [stubRec "Technical Feasibility", stubRec "Unit Economics",
     stubRec "Competitive Moats", stubRec "Scaling Bottlenecks"]
    stubEval_collect rfl
  have hpipe : runAdversarialEvaluation dedupFirst registryWeight registryKeys stubEvalOf
      "A startup" (some ["claude_opus", "no_such_model"]) =
      synthesizeVerdict dedupFirst registryWeight "A startup" [stubEval]
        (runDebateRounds [stubEval]) := rfl
  rw [hpipe, hv]
  simp [runEvalsOf, hevals]

/-- C3 (amended).  What actually holds: unknown names in a nonempty requested
subset are silently ignored — the run is identical to requesting only the
registered names of the subset (provided that cleaned subset is nonempty;
when it is empty the run instead crashes with the C1 division error, still
not a configuration rejection). -/
theorem unknown_name_amended_c3 :
    ∀ (setList : List String → List String) (w : String → ℚ) (keys : List String)
      (evalOf : String → Except String ModelEvaluation) (concept : String) (l : List String),
      l ≠ [] → l.filter (fun n => keys.contains n) ≠ [] →
      runAdversarialEvaluation setList w keys evalOf concept (some l) =
        runAdversarialEvaluation setList w keys evalOf concept
          (some (l.filter (fun n => keys.contains n))) := by
  intro setList w keys evalOf concept l hl hf
  have h1 : modelsToUse keys (some l) = l := by
    cases l with
    | nil => exact absurd rfl hl
    | cons a t => rfl
  have h2 : modelsToUse keys (some (l.filter (fun n => keys.contains n))) =
      l.filter (fun n => keys.contains n) := by
    rcases hfe : l.filter (fun n => keys.contains n) with _ | ⟨a, t⟩
    · exact absurd hfe hf
    · rfl
  have hXY : (l.filter (fun n => keys.contains n)).filter (fun n => keys.contains n) =
      l.filter (fun n => keys.contains n) := by
    simp [List.filter_filter]
  simp only [runAdversarialEvaluation, runParallelEvaluation]
  rw [h1, h2, hXY]

/-- C3 (amended, witness): the concrete bogus-name request is provably the
same run as the cleaned request. -/
theorem unknown_name_amended_c3_witness :
    (["claude_opus", "no_such_model"] : List String) ≠ [] ∧
    ["claude_opus", "no_such_model"].filter (fun n => registryKeys.contains n) ≠ [] ∧
    runAdversarialEvaluation dedupFirst registryWeight registryKeys stubEvalOf "A startup"
      (some ["claude_opus", "no_such_model"]) =
      runAdversarialEvaluation dedupFirst registryWeight registryKeys stubEvalOf "A startup"
        (some (["claude_opus", "no_such_model"].filter (fun n => registryKeys.contains n))) := by
  refine ⟨by simp, by decide, ?_⟩
  exact unknown_name_amended_c3 dedupFirst registryWeight registryKeys stubEvalOf
    "A startup" ["claude_opus", "no_such_model"] (by simp) (by decide)

end Crucible
